import Mathlib

/-!
# Verification of the Gemini-Watermark-Remover inference pipeline

Shallow embedding of the core pipeline of the repository:

* `src/js/model-manager.js` — the `ModelManager` singleton (the spec's
  `EngineCache`): single-flight asynchronous initialization, inference,
  disposal and cache clearing.
* `src/js/image-processor.js` — `preprocessImage` / `postprocessImage`
  (the spec's `TensorCodec`) and `composeFinalImage` (the spec's
  `Compositor`).
* `src/js/utils.js` — `calculateWatermarkRegion` (the spec's
  `RegionCalculator`).

JavaScript numbers are modelled as exact rationals, extended with the
non-finite values `NaN`, `Infinity` and `-Infinity` where the code can
meet them (the tensor decoding path).  `src/js/config.js` is not among
the available sources, so the configuration constants it provides
(`CONFIG.WATERMARK.WIDTH_RATIO`, `HEIGHT_RATIO`, `EXTENDED_RATIO`,
`CONFIG.MODEL.INPUT_SIZE`, error strings) appear as explicit parameters,
constrained only as the spec constrains them.
-/

namespace GeminiWatermark

/-- A JavaScript number as it can appear in the tensor decoding path:
`NaN`, `Infinity`, `-Infinity`, or a finite value (modelled as an exact
rational). -/
inductive JVal where
  | nan
  | posInf
  | negInf
  | fin (q : ℚ)
  deriving DecidableEq

/-- `Math.abs`. -/
def jAbs : JVal → JVal
  | .nan => .nan
  | .posInf => .posInf
  | .negInf => .posInf
  | .fin q => .fin |q|

/-- `Math.max` on two values: `NaN` if either argument is `NaN`,
otherwise the larger value. -/
def jMax : JVal → JVal → JVal
  | .nan, _ => .nan
  | _, .nan => .nan
  | .posInf, _ => .posInf
  | _, .posInf => .posInf
  | .negInf, b => b
  | a, .negInf => a
  | .fin a, .fin b => .fin (max a b)

/-- `Math.min` on two values: `NaN` if either argument is `NaN`,
otherwise the smaller value. -/
def jMin : JVal → JVal → JVal
  | .nan, _ => .nan
  | _, .nan => .nan
  | .negInf, _ => .negInf
  | _, .negInf => .negInf
  | .posInf, b => b
  | a, .posInf => a
  | .fin a, .fin b => .fin (min a b)

/-- The JavaScript comparison `a <= b`: `false` whenever either side is
`NaN`. -/
def jLe : JVal → JVal → Bool
  | .nan, _ => false
  | _, .nan => false
  | .negInf, _ => true
  | _, .posInf => true
  | .posInf, _ => false
  | _, .negInf => false
  | .fin a, .fin b => a ≤ b

/-- Multiplication by the scalar `255` (the `r *= 255` denormalization
step); `255` is positive, so infinities keep their sign. -/
def jMul255 : JVal → JVal
  | .nan => .nan
  | .posInf => .posInf
  | .negInf => .negInf
  | .fin q => .fin (q * 255)

/-- `Math.round`: round half up, `⌊q + 1/2⌋` on finite values, identity
on `NaN` and the infinities. -/
def jRound : JVal → JVal
  | .nan => .nan
  | .posInf => .posInf
  | .negInf => .negInf
  | .fin q => .fin ((⌊q + 1/2⌋ : ℤ) : ℚ)

/-- Round half to even on an exact rational. -/
def roundHalfEven (q : ℚ) : ℤ :=
  let f := ⌊q⌋
  let r := q - f
  if r < 1/2 then f
  else if 1/2 < r then f + 1
  else if Even f then f else f + 1

/-- Storing a JavaScript number into a `Uint8ClampedArray` cell:
`NaN` becomes `0`, values are clamped to `[0, 255]`, finite values are
rounded half to even. -/
def clampedByte : JVal → ℕ
  | .nan => 0
  | .negInf => 0
  | .posInf => 255
  | .fin q =>
    if q ≤ 0 then 0
    else if 255 ≤ q then 255
    else (roundHalfEven q).toNat

/-! ## RegionCalculator (`calculateWatermarkRegion`, src/js/utils.js) -/

/-- Modelled from the spec: `src/js/config.js` is not among the sources.
The spec describes `CONFIG.WATERMARK` as configurable watermark
width/height ratios plus a larger extended ratio used only for
compositing, each a number with `0 < ratio ≤ 1`; their concrete values
stay abstract here. -/
structure WatermarkConfig where
  WIDTH_RATIO : ℚ
  HEIGHT_RATIO : ℚ
  EXTENDED_RATIO : ℚ
  deriving DecidableEq

/-- An integer rectangle `{x, y, width, height}` as returned by
`calculateWatermarkRegion`. -/
structure Region where
  x : ℤ
  y : ℤ
  width : ℤ
  height : ℤ
  deriving DecidableEq

/-- The JavaScript expression `ratio || default`: the optional argument
(`null` when omitted) is replaced by the default when it is absent or
falsy (`0`). -/
def jsOrQ (ratio : Option ℚ) (d : ℚ) : ℚ :=
  match ratio with
  | none => d
  | some r => if r = 0 then d else r

/-- `calculateWatermarkRegion(width, height, ratio = null)` from
`src/js/utils.js`: per-axis ratios default to the configured constants
when `ratio` is falsy; region dimensions are floors of `width * ratio`
and `height * ratio`; the region is anchored at the bottom-right
corner. -/
def calculateWatermarkRegion (cfg : WatermarkConfig) (width height : ℤ)
    (ratio : Option ℚ := none) : Region :=
  let heightRatio := jsOrQ ratio cfg.HEIGHT_RATIO
  let widthRatio := jsOrQ ratio cfg.WIDTH_RATIO
  let regionWidth := ⌊(width : ℚ) * widthRatio⌋
  let regionHeight := ⌊(height : ℚ) * heightRatio⌋
  { x := width - regionWidth
    y := height - regionHeight
    width := regionWidth
    height := regionHeight }

/-! ## EngineCache (`ModelManager`, src/js/model-manager.js)

The mutable fields of the `ModelManager` singleton are `session`,
`modelBuffer`, `isInitialized` and `initializationPromise`.  Engine
handles and promise handles are abstract and identified by natural
numbers; model bytes are a byte list.  The asynchronous environment —
whether the ONNX runtime global is loaded, what the network fetch
returns, what `ort.InferenceSession.create` returns, what
`session.run` returns — is passed in explicitly. -/

/-- The error taxonomy of the spec, with the wrapped underlying cause
message where the code interpolates one. -/
inductive MMError where
  | notInitialized
  | engineLoadError (cause : String)
  | inferenceError (cause : String)
  deriving DecidableEq

/-- The four instance fields of `ModelManager`. -/
structure MMState where
  session : Option ℕ
  modelBuffer : Option (List ℕ)
  isInitialized : Bool
  initializationPromise : Option ℕ
  deriving DecidableEq

/-- The state built by the `ModelManager` constructor: everything null
or false. -/
def MMState.new : MMState :=
  { session := none, modelBuffer := none, isInitialized := false
    initializationPromise := none }

/-- `Ready` in the spec's state machine: a successful `initialize` has
completed and has not been disposed (`isInitialized` set and a live
session handle). -/
def MMState.Ready (s : MMState) : Prop :=
  s.isInitialized = true ∧ s.session ≠ none

instance (s : MMState) : Decidable s.Ready := by
  unfold MMState.Ready; infer_instance

/-- Outcome of the synchronous prefix of `initialize`: return
immediately because already initialized, return the existing in-flight
promise, or start a fresh attempt (registering a new promise handle). -/
inductive InitAcquire where
  | immediate
  | attached (h : ℕ)
  | started (h : ℕ)
  deriving DecidableEq

/-- The handle a caller ends up holding, if any. -/
def InitAcquire.handle? : InitAcquire → Option ℕ
  | .immediate => none
  | .attached h => some h
  | .started h => some h

/-- The synchronous prefix of `ModelManager.initialize` (lines 83-95):
if `isInitialized`, return immediately; if `initializationPromise` is
set, return it; otherwise install a fresh promise handle and begin the
initialization body. -/
def initializeAcquire (s : MMState) (freshId : ℕ) : InitAcquire × MMState :=
  if s.isInitialized then (.immediate, s)
  else
    match s.initializationPromise with
    | some h => (.attached h, s)
    | none => (.started freshId, { s with initializationPromise := some freshId })

/-- The asynchronous environment one initialization body runs against:
whether the `ort` global exists, the result of the network fetch of the
model bytes, and the result of `ort.InferenceSession.create`. -/
structure InitEnv where
  ortLoaded : Bool
  fetchResult : Except String (List ℕ)
  createResult : Except String ℕ

/-- Resolution of the in-flight promise. -/
inductive InitOutcome where
  | resolved
  | rejected (e : MMError)
  deriving DecidableEq

/-- What one execution of the initialization body did: its outcome, the
state it left behind, and how many network fetches / engine
constructions it performed. -/
structure InitRun where
  outcome : InitOutcome
  state : MMState
  fetches : ℕ
  constructions : ℕ
  deriving DecidableEq

/-- The tail of the initialization body after the model buffer is
available (lines 115-133): construct the inference session; on success
set `session` and `isInitialized`; on failure clear the in-flight
promise and reject with the wrapped cause. -/
def initializeCreate (s : MMState) (env : InitEnv) (f : ℕ) : InitRun :=
  match env.createResult with
  | .error msg =>
    { outcome := .rejected (.engineLoadError msg)
      state := { s with initializationPromise := none }
      fetches := f, constructions := 1 }
  | .ok engine =>
    { outcome := .resolved
      state := { s with session := some engine, isInitialized := true }
      fetches := f, constructions := 1 }

/-- The initialization body (the async closure, lines 95-134): check
the runtime global, fetch the model bytes when they are not cached,
then construct the engine.  The `catch` clause (lines 130-133) clears
`initializationPromise` and rejects with
`MODEL_LOAD_FAILED: ${error.message}` — it does not touch
`modelBuffer`.  One asymmetry of the source is preserved: the `ort`
check of `initializeOnnxRuntime` throws synchronously, before the
closure reaches its first `await`, so its `catch` runs before the
line-95 assignment `this.initializationPromise = (async () => ...)()`
completes — the assignment then overwrites the cleared field with the
already-rejected promise, leaving the stale handle installed (state
unchanged here).  Fetch and construction failures happen after an
`await`, when the assignment is long done, so for them the `catch`
really does clear the field. -/
def runInitBody (s : MMState) (env : InitEnv) : InitRun :=
  if env.ortLoaded then
    match s.modelBuffer with
    | some _ => initializeCreate s env 0
    | none =>
      match env.fetchResult with
      | .error msg =>
        { outcome := .rejected (.engineLoadError msg)
          state := { s with initializationPromise := none }
          fetches := 1, constructions := 0 }
      | .ok bytes => initializeCreate { s with modelBuffer := some bytes } env 1
  else
    { outcome := .rejected (.engineLoadError "ONNX Runtime not loaded")
      state := s
      fetches := 0, constructions := 0 }

/-- A batch of further `initialize` calls arriving before the in-flight
body resolves: each performs only the synchronous prefix. -/
def acquireMany (s : MMState) : List ℕ → List InitAcquire × MMState
  | [] => ([], s)
  | id :: ids =>
    let (r, s') := initializeAcquire s id
    let (rs, s'') := acquireMany s' ids
    (r :: rs, s'')

/-- What a caller holding the result of the synchronous prefix
eventually observes once the single in-flight body finishes with
`run`: callers attached to (or starting) the in-flight promise observe
its outcome; a caller that returned immediately saw an already
initialized cache. -/
def observe (run : InitRun) : InitAcquire → InitOutcome
  | .immediate => .resolved
  | .attached _ => run.outcome
  | .started _ => run.outcome

/-- The asynchronous environment of one inference call: what
`session.run(feeds)` returns — a list of named output tensors (tensor
handles are abstract) or an error message. -/
structure InferEnv where
  runResult : Except String (List (String × ℕ))

/-- `ModelManager.runInference` (lines 144-158): reject with the
not-initialized error unless both `isInitialized` and `session` are
set; otherwise run the session and return its first named output
(`none` models the `undefined` read when the engine returns no
outputs); engine failures are wrapped as `Inference failed`. -/
def runInference (s : MMState) (env : InferEnv) : Except MMError (Option ℕ) :=
  if s.isInitialized = false ∨ s.session = none then
    .error .notInitialized
  else
    match env.runResult with
    | .error msg => .error (.inferenceError msg)
    | .ok results => .ok ((results.map Prod.snd).head?)

/-- `ModelManager.dispose` (lines 163-171): release and null the
session, clear `isInitialized` and the in-flight promise, keep
`modelBuffer` cached. -/
def dispose (s : MMState) : MMState :=
  { s with session := none, isInitialized := false, initializationPromise := none }

/-- `ModelManager.clearCache` (lines 176-179): dispose, then discard
the cached model bytes. -/
def clearCache (s : MMState) : MMState :=
  { dispose s with modelBuffer := none }

/-- The two dynamic fields of `ModelManager.getInfo` (lines 185-192);
the remaining fields (`modelPath`, `inputSize`) are static
configuration. -/
structure ModelInfo where
  isInitialized : Bool
  hasModelBuffer : Bool
  deriving DecidableEq

/-- `ModelManager.getInfo`. -/
def getInfo (s : MMState) : ModelInfo :=
  { isInitialized := s.isInitialized, hasModelBuffer := s.modelBuffer.isSome }

/-! ## TensorCodec (`preprocessImage` / `postprocessImage`,
src/js/image-processor.js)

`ImageData` is a width, a height and a flat RGBA byte array; typed
arrays are modelled as index functions together with an explicit
length (cells outside the initialized range hold the typed-array
default `0`). -/

/-- `ImageData`: interleaved RGBA bytes, row-major. -/
structure ImageData where
  width : ℕ
  height : ℕ
  data : ℕ → ℕ

/-- A tensor: flat numeric data plus its length (the shape descriptor
`[1, c, H, W]` is determined by the call sites). -/
structure Tensor where
  data : ℕ → JVal
  length : ℕ

/-- The image tensor built by `preprocessImage` (lines 18-27): plane
`c ∈ {R,G,B}` at offset `c * width * height`, each value
`data[i*4 + c] / 255`. -/
def preprocessImageTensor (img : ImageData) : Tensor :=
  let wh := img.width * img.height
  { length := 3 * wh
    data := fun k =>
      if k < 3 * wh then .fin ((img.data (4 * (k % wh) + k / wh) : ℚ) / 255)
      else .fin 0 }

/-- The mask tensor built by `preprocessImage` (lines 30-46): `1.0` on
pixels at or beyond the watermark region's top-left corner (computed by
`calculateWatermarkRegion` with the default ratios), `0.0` elsewhere. -/
def preprocessMaskTensor (cfg : WatermarkConfig) (img : ImageData) : Tensor :=
  let region := calculateWatermarkRegion cfg img.width img.height
  { length := img.width * img.height
    data := fun k =>
      if k < img.width * img.height then
        let y := k / img.width
        let x := k % img.width
        if region.y ≤ (y : ℤ) ∧ region.x ≤ (x : ℤ) then .fin 1 else .fin 0
      else .fin 0 }

/-- `preprocessImage(imageData)`: the `{ imageTensor, maskTensor }`
pair. -/
def preprocessImage (cfg : WatermarkConfig) (img : ImageData) : Tensor × Tensor :=
  (preprocessImageTensor img, preprocessMaskTensor cfg img)

/-- The sampling loop of `postprocessImage` (lines 63-67): running
`Math.max` of the absolute values of the first `n` data values,
starting from `0`. -/
def sampledMax (d : ℕ → JVal) : ℕ → JVal
  | 0 => .fin 0
  | n + 1 => jMax (sampledMax d n) (jAbs (d n))

/-- One output byte of `postprocessImage` (lines 72-86): the channel
value, scaled by 255 when the range was detected as normalized, rounded,
clamped to `[0, 255]` with `Math.min`/`Math.max`, and stored into the
`Uint8ClampedArray`. -/
def postChannelByte (v : JVal) (isNormalized : Bool) : ℕ :=
  let v := if isNormalized then jMul255 v else v
  clampedByte (jMin (.fin 255) (jMax (.fin 0) (jRound v)))

/-- `postprocessImage(outputTensor, width, height)` (lines 58-90):
auto-detect the value range from up to `1000` leading samples of the
first channel plane (`sampleSize = Math.min(1000, data.length / 3)`;
the division is exact under the caller precondition
`data.length = 3 * width * height`), then convert CHW planes to
interleaved RGBA with alpha `255`. -/
def postprocessImage (t : Tensor) (width height : ℕ) : ImageData :=
  let wh := width * height
  let sampleSize := min 1000 (t.length / 3)
  let isNormalized := jLe (sampledMax t.data sampleSize) (.fin 2)
  { width := width
    height := height
    data := fun idx =>
      let i := idx / 4
      let c := idx % 4
      if i < wh then
        if c = 3 then 255
        else postChannelByte (t.data (c * wh + i)) isNormalized
      else 0 }

/-! ## Compositor (`composeFinalImage`, src/js/image-processor.js)

Canvas pixels carry four bytes.  The browser's `drawImage` with source
and destination rectangles is external to the repository; it is
modelled abstractly by a resampler argument: any function producing the
pixels of the destination rectangle from the source bitmap and the two
rectangles (the spec accepts any resampling algorithm).  Pixels outside
the destination rectangle are untouched — that part is the modelled
canvas semantics, not the resampler's choice. -/

/-- An RGBA pixel. -/
structure Pix where
  r : ℕ
  g : ℕ
  b : ℕ
  a : ℕ
  deriving DecidableEq

/-- A canvas/bitmap: dimensions plus a pixel function. -/
structure Bitmap where
  width : ℕ
  height : ℕ
  pixel : ℕ → ℕ → Pix

/-- Membership of an (integer) pixel coordinate in a `Region`. -/
def inRegion (r : Region) (x y : ℕ) : Prop :=
  r.x ≤ (x : ℤ) ∧ (x : ℤ) < r.x + r.width ∧ r.y ≤ (y : ℤ) ∧ (y : ℤ) < r.y + r.height

instance (r : Region) (x y : ℕ) : Decidable (inRegion r x y) := by
  unfold inRegion; infer_instance

/-- Modelled from the spec: the external browser resampler used by the
nine-argument `drawImage` — it may be nearest, bilinear, or anything
else, so it stays abstract. -/
def Resampler : Type :=
  Bitmap → Region → Region → ℕ → ℕ → Pix

/-- The temporary canvas of `composeFinalImage` (lines 114-118): a
square canvas of the model input size holding `processedImageData` at
the origin via `putImageData`; cells not covered keep the canvas
default (transparent black). -/
def tempCanvasOf (processed : Bitmap) (size : ℕ) : Bitmap :=
  { width := size
    height := size
    pixel := fun x y =>
      if x < processed.width ∧ y < processed.height then processed.pixel x y
      else ⟨0, 0, 0, 0⟩ }

/-- `composeFinalImage(originalBitmap, processedImageData)` (lines
100-143): a canvas at the original dimensions, the original drawn as
base, then the extended watermark region of the temporary canvas
resampled into the extended watermark region of the final canvas (both
regions computed with `CONFIG.WATERMARK.EXTENDED_RATIO`). -/
def composeFinalImage (cfg : WatermarkConfig) (inputSize : ℕ)
    (resample : Resampler) (orig processed : Bitmap) : Bitmap :=
  let origRegion :=
    calculateWatermarkRegion cfg orig.width orig.height (some cfg.EXTENDED_RATIO)
  let processedRegion :=
    calculateWatermarkRegion cfg inputSize inputSize (some cfg.EXTENDED_RATIO)
  let temp := tempCanvasOf processed inputSize
  { width := orig.width
    height := orig.height
    pixel := fun x y =>
      if inRegion origRegion x y then resample temp processedRegion origRegion x y
      else orig.pixel x y }

/-! ## Helper lemmas -/

theorem roundHalfEven_bounds (q : ℚ) :
    ⌊q⌋ ≤ roundHalfEven q ∧ roundHalfEven q ≤ ⌊q⌋ + 1 := by
  simp only [roundHalfEven]
  split_ifs <;> omega

theorem roundHalfEven_intCast (z : ℤ) : roundHalfEven ((z : ℚ)) = z := by
  simp only [roundHalfEven, Int.floor_intCast, sub_self]
  norm_num

theorem clampedByte_le (v : JVal) : clampedByte v ≤ 255 := by
  cases v with
  | nan => simp [clampedByte]
  | negInf => simp [clampedByte]
  | posInf => simp [clampedByte]
  | fin q =>
    simp only [clampedByte]
    split_ifs with h0 h255
    · omega
    · omega
    · have hfl : ⌊q⌋ < 255 := Int.floor_lt.mpr (by push_cast; linarith)
      have hb := (roundHalfEven_bounds q).2
      omega

theorem clampedByte_clamp_intCast (z : ℤ) :
    clampedByte (jMin (.fin 255) (jMax (.fin 0) (.fin (z : ℚ)))) =
      (min 255 (max 0 z)).toNat := by
  have hmax : jMax (.fin 0) (.fin (z : ℚ)) = .fin ((max 0 z : ℤ) : ℚ) := by
    show JVal.fin (max 0 (z : ℚ)) = _
    congr 1
    push_cast
    rfl
  rw [hmax]
  have hmin : jMin (.fin 255) (.fin ((max 0 z : ℤ) : ℚ)) =
      .fin ((min 255 (max 0 z) : ℤ) : ℚ) := by
    show JVal.fin (min 255 ((max 0 z : ℤ) : ℚ)) = _
    congr 1
    push_cast
    rfl
  rw [hmin]
  set w : ℤ := min 255 (max 0 z) with hw
  have hw0 : (0 : ℤ) ≤ w := le_min (by norm_num) (le_max_left 0 z)
  have hw255 : w ≤ 255 := min_le_left _ _
  simp only [clampedByte]
  split_ifs with hle hge
  · have h0 : w ≤ 0 := by exact_mod_cast hle
    have hweq : w = 0 := le_antisymm h0 hw0
    simp [hweq]
  · have h2 : (255 : ℤ) ≤ w := by exact_mod_cast hge
    have hweq : w = 255 := le_antisymm hw255 h2
    simp [hweq]
  · rw [roundHalfEven_intCast]

/-- C6: for every integer width and height and every ratio with
`0 < ratio ≤ 1`, `computeRegion(width, height, ratio)` returns a region
with width `floor(width*ratio)`, height `floor(height*ratio)`,
`x = width - regionWidth` and `y = height - regionHeight`, so that
`x + region.width == inputWidth` and `y + region.height == inputHeight`
(bottom-right anchoring). -/
theorem calculateWatermarkRegion_anchoring (cfg : WatermarkConfig)
    (width height : ℤ) (ratio : ℚ) (h0 : 0 < ratio) (h1 : ratio ≤ 1) :
    calculateWatermarkRegion cfg width height (some ratio) =
      { x := width - ⌊(width : ℚ) * ratio⌋
        y := height - ⌊(height : ℚ) * ratio⌋
        width := ⌊(width : ℚ) * ratio⌋
        height := ⌊(height : ℚ) * ratio⌋ } ∧
    (calculateWatermarkRegion cfg width height (some ratio)).x +
      (calculateWatermarkRegion cfg width height (some ratio)).width = width ∧
    (calculateWatermarkRegion cfg width height (some ratio)).y +
      (calculateWatermarkRegion cfg width height (some ratio)).height = height := by
  have hne : ratio ≠ 0 := ne_of_gt h0
  refine ⟨?_, ?_, ?_⟩ <;>
    simp [calculateWatermarkRegion, jsOrQ, hne]

theorem calculateWatermarkRegion_anchoring_witness :
    calculateWatermarkRegion ⟨1/4, 1/8, 3/10⟩ 100 50 (some (3/10)) =
      { x := 100 - ⌊(100 : ℚ) * (3/10)⌋
        y := 50 - ⌊(50 : ℚ) * (3/10)⌋
        width := ⌊(100 : ℚ) * (3/10)⌋
        height := ⌊(50 : ℚ) * (3/10)⌋ } ∧
    (calculateWatermarkRegion ⟨1/4, 1/8, 3/10⟩ 100 50 (some (3/10))).x +
      (calculateWatermarkRegion ⟨1/4, 1/8, 3/10⟩ 100 50 (some (3/10))).width = 100 ∧
    (calculateWatermarkRegion ⟨1/4, 1/8, 3/10⟩ 100 50 (some (3/10))).y +
      (calculateWatermarkRegion ⟨1/4, 1/8, 3/10⟩ 100 50 (some (3/10))).height = 50 :=
  calculateWatermarkRegion_anchoring ⟨1/4, 1/8, 3/10⟩ 100 50 (3/10)
    (by norm_num) (by norm_num)

/-- C9: a falsy `ratio` argument (`0`, or `null` when omitted) does not
produce an empty region: it is replaced per-axis by the configured
default `WIDTH_RATIO` and `HEIGHT_RATIO`, two potentially different
constants; when the configured ratios make `width*WIDTH_RATIO` and
`height*HEIGHT_RATIO` at least `1`, both region dimensions are
positive. -/
theorem calculateWatermarkRegion_default_ratios (cfg : WatermarkConfig)
    (width height : ℤ)
    (hw : 1 ≤ (width : ℚ) * cfg.WIDTH_RATIO)
    (hh : 1 ≤ (height : ℚ) * cfg.HEIGHT_RATIO) :
    calculateWatermarkRegion cfg width height (some 0) =
      calculateWatermarkRegion cfg width height none ∧
    (calculateWatermarkRegion cfg width height none).width =
      ⌊(width : ℚ) * cfg.WIDTH_RATIO⌋ ∧
    (calculateWatermarkRegion cfg width height none).height =
      ⌊(height : ℚ) * cfg.HEIGHT_RATIO⌋ ∧
    0 < (calculateWatermarkRegion cfg width height (some 0)).width ∧
    0 < (calculateWatermarkRegion cfg width height (some 0)).height := by
  refine ⟨?_, ?_, ?_, ?_, ?_⟩ <;>
    simp [calculateWatermarkRegion, jsOrQ]
  · exact Int.le_floor.mpr (by push_cast; linarith)
  · exact Int.le_floor.mpr (by push_cast; linarith)

theorem calculateWatermarkRegion_default_ratios_witness :
    (calculateWatermarkRegion ⟨1/2, 1/4, 3/10⟩ 100 100 (some 0) =
      calculateWatermarkRegion ⟨1/2, 1/4, 3/10⟩ 100 100 none ∧
    (calculateWatermarkRegion ⟨1/2, 1/4, 3/10⟩ 100 100 none).width =
      ⌊(100 : ℚ) * (1/2)⌋ ∧
    (calculateWatermarkRegion ⟨1/2, 1/4, 3/10⟩ 100 100 none).height =
      ⌊(100 : ℚ) * (1/4)⌋ ∧
    0 < (calculateWatermarkRegion ⟨1/2, 1/4, 3/10⟩ 100 100 (some 0)).width ∧
    0 < (calculateWatermarkRegion ⟨1/2, 1/4, 3/10⟩ 100 100 (some 0)).height) ∧
    (calculateWatermarkRegion ⟨1/2, 1/4, 3/10⟩ 100 100 none).width ≠
      (calculateWatermarkRegion ⟨1/2, 1/4, 3/10⟩ 100 100 none).height :=
  ⟨calculateWatermarkRegion_default_ratios ⟨1/2, 1/4, 3/10⟩ 100 100
      (by norm_num) (by norm_num),
    by simp [calculateWatermarkRegion, jsOrQ]; norm_num⟩

theorem calculateWatermarkRegion_x_add_width (cfg : WatermarkConfig)
    (width height : ℤ) (ratio : Option ℚ) :
    (calculateWatermarkRegion cfg width height ratio).x +
        (calculateWatermarkRegion cfg width height ratio).width = width ∧
    (calculateWatermarkRegion cfg width height ratio).y +
        (calculateWatermarkRegion cfg width height ratio).height = height := by
  constructor <;> simp [calculateWatermarkRegion]

/-- C3: `composeFinalImage` returns an image with exactly the original
dimensions; every pixel strictly outside the extended watermark region
(computed by `calculateWatermarkRegion` with the extended ratio — for a
pixel inside the canvas that means `x < region.x` or `y < region.y`) is
the corresponding original pixel, while pixels inside the extended
region come from resampling the extended region of the restored
image. -/
theorem composeFinalImage_fidelity (cfg : WatermarkConfig) (inputSize : ℕ)
    (resample : Resampler) (orig processed : Bitmap)
    (x y : ℕ) (hx : x < orig.width) (hy : y < orig.height) :
    (composeFinalImage cfg inputSize resample orig processed).width = orig.width ∧
    (composeFinalImage cfg inputSize resample orig processed).height = orig.height ∧
    (((x : ℤ) < (calculateWatermarkRegion cfg orig.width orig.height
          (some cfg.EXTENDED_RATIO)).x ∨
      (y : ℤ) < (calculateWatermarkRegion cfg orig.width orig.height
          (some cfg.EXTENDED_RATIO)).y) →
      (composeFinalImage cfg inputSize resample orig processed).pixel x y =
        orig.pixel x y) ∧
    (((calculateWatermarkRegion cfg orig.width orig.height
          (some cfg.EXTENDED_RATIO)).x ≤ (x : ℤ) ∧
      (calculateWatermarkRegion cfg orig.width orig.height
          (some cfg.EXTENDED_RATIO)).y ≤ (y : ℤ)) →
      (composeFinalImage cfg inputSize resample orig processed).pixel x y =
        resample (tempCanvasOf processed inputSize)
          (calculateWatermarkRegion cfg inputSize inputSize (some cfg.EXTENDED_RATIO))
          (calculateWatermarkRegion cfg orig.width orig.height (some cfg.EXTENDED_RATIO))
          x y) := by
  set R := calculateWatermarkRegion cfg orig.width orig.height
    (some cfg.EXTENDED_RATIO) with hR
  have hxa : R.x + R.width = (orig.width : ℤ) :=
    (calculateWatermarkRegion_x_add_width cfg orig.width orig.height
      (some cfg.EXTENDED_RATIO)).1
  have hya : R.y + R.height = (orig.height : ℤ) :=
    (calculateWatermarkRegion_x_add_width cfg orig.width orig.height
      (some cfg.EXTENDED_RATIO)).2
  refine ⟨rfl, rfl, ?_, ?_⟩
  · intro h
    have hnot : ¬ inRegion R x y := by
      unfold inRegion
      rcases h with h | h
      · intro hc; exact absurd hc.1 (not_le.mpr h)
      · intro hc; exact absurd hc.2.2.1 (not_le.mpr h)
    simp only [composeFinalImage]
    rw [if_neg hnot]
  · rintro ⟨h1, h2⟩
    have hin : inRegion R x y := by
      refine ⟨h1, ?_, h2, ?_⟩
      · rw [hxa]; exact_mod_cast hx
      · rw [hya]; exact_mod_cast hy
    simp only [composeFinalImage]
    rw [if_pos hin]

theorem composeFinalImage_fidelity_witness :
    ((composeFinalImage ⟨1/4, 1/8, 3/10⟩ 512 (fun _ _ _ _ _ => ⟨9, 9, 9, 255⟩)
        ⟨100, 100, fun _ _ => ⟨1, 2, 3, 255⟩⟩ ⟨512, 512, fun _ _ => ⟨9, 9, 9, 255⟩⟩).width
      = 100 ∧
    (composeFinalImage ⟨1/4, 1/8, 3/10⟩ 512 (fun _ _ _ _ _ => ⟨9, 9, 9, 255⟩)
        ⟨100, 100, fun _ _ => ⟨1, 2, 3, 255⟩⟩ ⟨512, 512, fun _ _ => ⟨9, 9, 9, 255⟩⟩).height
      = 100 ∧
    (((5 : ℤ) < (calculateWatermarkRegion ⟨1/4, 1/8, 3/10⟩ 100 100 (some (3/10))).x ∨
      (80 : ℤ) < (calculateWatermarkRegion ⟨1/4, 1/8, 3/10⟩ 100 100 (some (3/10))).y) →
      (composeFinalImage ⟨1/4, 1/8, 3/10⟩ 512 (fun _ _ _ _ _ => ⟨9, 9, 9, 255⟩)
        ⟨100, 100, fun _ _ => ⟨1, 2, 3, 255⟩⟩ ⟨512, 512, fun _ _ => ⟨9, 9, 9, 255⟩⟩).pixel 5 80
        = (Bitmap.mk 100 100 fun _ _ => ⟨1, 2, 3, 255⟩).pixel 5 80) ∧
    (((calculateWatermarkRegion ⟨1/4, 1/8, 3/10⟩ 100 100 (some (3/10))).x ≤ (5 : ℤ) ∧
      (calculateWatermarkRegion ⟨1/4, 1/8, 3/10⟩ 100 100 (some (3/10))).y ≤ (80 : ℤ)) →
      (composeFinalImage ⟨1/4, 1/8, 3/10⟩ 512 (fun _ _ _ _ _ => ⟨9, 9, 9, 255⟩)
        ⟨100, 100, fun _ _ => ⟨1, 2, 3, 255⟩⟩ ⟨512, 512, fun _ _ => ⟨9, 9, 9, 255⟩⟩).pixel 5 80
        = ⟨9, 9, 9, 255⟩)) ∧
    (calculateWatermarkRegion ⟨1/4, 1/8, 3/10⟩ 100 100 (some (3/10))).x = 70 ∧
    (calculateWatermarkRegion ⟨1/4, 1/8, 3/10⟩ 100 100 (some (3/10))).y = 70 :=
  ⟨composeFinalImage_fidelity ⟨1/4, 1/8, 3/10⟩ 512 (fun _ _ _ _ _ => ⟨9, 9, 9, 255⟩)
      ⟨100, 100, fun _ _ => ⟨1, 2, 3, 255⟩⟩ ⟨512, 512, fun _ _ => ⟨9, 9, 9, 255⟩⟩
      5 80 (by norm_num) (by norm_num),
    by constructor <;> · simp [calculateWatermarkRegion, jsOrQ]; norm_num⟩

/-- C7: `runInference` fails with the not-initialized error exactly
when the cache state is not `Ready`; when it is `Ready` it delegates to
the engine and returns the first named output tensor (engine failures
are wrapped as inference errors, never as the not-initialized
error). -/
theorem runInference_notInitialized_iff (s : MMState) (env : InferEnv) :
    (runInference s env = .error .notInitialized ↔ ¬ s.Ready) ∧
    (s.Ready → runInference s env =
      match env.runResult with
      | .error msg => .error (.inferenceError msg)
      | .ok results => .ok ((results.map Prod.snd).head?)) := by
  by_cases hr : s.Ready
  · obtain ⟨h1, h2⟩ := hr
    have hcond : ¬ (s.isInitialized = false ∨ s.session = none) := by
      rintro (h | h)
      · rw [h1] at h; cases h
      · exact h2 h
    have hrun : runInference s env =
        match env.runResult with
        | .error msg => .error (.inferenceError msg)
        | .ok results => .ok ((results.map Prod.snd).head?) := by
      simp only [runInference]
      rw [if_neg hcond]
    refine ⟨?_, fun _ => hrun⟩
    rw [hrun]
    constructor
    · intro h
      exfalso
      cases henv : env.runResult with
      | error msg => rw [henv] at h; simp at h
      | ok results => rw [henv] at h; simp at h
    · intro h
      exact absurd ⟨h1, h2⟩ h
  · have hcond : s.isInitialized = false ∨ s.session = none := by
      unfold MMState.Ready at hr
      push_neg at hr
      by_cases hi : s.isInitialized = true
      · exact Or.inr (hr hi)
      · exact Or.inl (by simpa using hi)
    refine ⟨?_, fun h => absurd h hr⟩
    simp only [runInference]
    rw [if_pos hcond]
    simp [hr]

theorem runInference_notInitialized_iff_witness :
    runInference ⟨some 7, some [1], true, none⟩ ⟨.ok [("output", 42)]⟩ =
      .ok (some 42) ∧
    MMState.Ready ⟨some 7, some [1], true, none⟩ :=
  ⟨(runInference_notInitialized_iff ⟨some 7, some [1], true, none⟩
      ⟨.ok [("output", 42)]⟩).2 ⟨rfl, by simp⟩,
    ⟨rfl, by simp⟩⟩

theorem initializeAcquire_modelBuffer (s : MMState) (id : ℕ) :
    (initializeAcquire s id).2.modelBuffer = s.modelBuffer := by
  by_cases hi : s.isInitialized
  · simp [initializeAcquire, hi]
  · cases hp : s.initializationPromise <;>
      simp [initializeAcquire, hi, hp]

theorem runInitBody_resolved_state (s : MMState) (env : InitEnv)
    (h : (runInitBody s env).outcome = .resolved) :
    (runInitBody s env).state.isInitialized = true ∧
    (runInitBody s env).state.modelBuffer.isSome = true ∧
    (runInitBody s env).state.session.isSome = true := by
  obtain ⟨ort, fetchR, createR⟩ := env
  obtain ⟨sess, buf, init, prom⟩ := s
  cases ort <;> cases buf <;> cases fetchR <;> cases createR <;>
    simp_all [runInitBody, initializeCreate]

theorem runInitBody_fetches_of_empty (s : MMState) (env : InitEnv)
    (hbuf : s.modelBuffer = none) (hort : env.ortLoaded = true) :
    (runInitBody s env).fetches = 1 := by
  obtain ⟨ort, fetchR, createR⟩ := env
  simp only at hort
  subst hort
  cases fetchR <;> cases createR <;>
    simp [runInitBody, initializeCreate, hbuf]

/-- C8: after a successful `initialize`, `dispose()` leaves
`getInfo()` reporting `isInitialized = false` and
`hasModelBuffer = true` (engine released, model bytes retained);
`clearCache()` then reports `hasModelBuffer = false`, and a subsequent
`initialize()` performs a fresh network fetch of the model bytes. -/
theorem modelManager_cache_lifecycle (s : MMState) (env : InitEnv)
    (h : (runInitBody s env).outcome = .resolved) :
    getInfo (dispose (runInitBody s env).state) =
      { isInitialized := false, hasModelBuffer := true } ∧
    (getInfo (clearCache (dispose (runInitBody s env).state))).hasModelBuffer
      = false ∧
    ∀ (id : ℕ) (env2 : InitEnv), env2.ortLoaded = true →
      (runInitBody
        (initializeAcquire (clearCache (dispose (runInitBody s env).state)) id).2
        env2).fetches = 1 := by
  obtain ⟨-, hbuf, -⟩ := runInitBody_resolved_state s env h
  refine ⟨?_, ?_, ?_⟩
  · simp [getInfo, dispose, hbuf]
  · simp [getInfo, clearCache, dispose]
  · intro id env2 hort
    apply runInitBody_fetches_of_empty _ _ _ hort
    rw [initializeAcquire_modelBuffer]
    simp [clearCache, dispose]

theorem modelManager_cache_lifecycle_witness :
    getInfo (dispose
      (runInitBody (initializeAcquire MMState.new 0).2 ⟨true, .ok [5], .ok 1⟩).state) =
      { isInitialized := false, hasModelBuffer := true } ∧
    (getInfo (clearCache (dispose
      (runInitBody (initializeAcquire MMState.new 0).2
        ⟨true, .ok [5], .ok 1⟩).state))).hasModelBuffer = false ∧
    (runInitBody
      (initializeAcquire (clearCache (dispose
        (runInitBody (initializeAcquire MMState.new 0).2
          ⟨true, .ok [5], .ok 1⟩).state)) 1).2
      ⟨true, .ok [5], .ok 1⟩).fetches = 1 :=
  have hl := modelManager_cache_lifecycle (initializeAcquire MMState.new 0).2
    ⟨true, .ok [5], .ok 1⟩ rfl
  ⟨hl.1, hl.2.1, hl.2.2 1 ⟨true, .ok [5], .ok 1⟩ rfl⟩

theorem acquireMany_attached (s : MMState) (h : ℕ)
    (h1 : s.isInitialized = false) (h2 : s.initializationPromise = some h)
    (ids : List ℕ) :
    acquireMany s ids = (ids.map (fun _ => InitAcquire.attached h), s) := by
  induction ids with
  | nil => rfl
  | cons id ids ih =>
    simp [acquireMany, initializeAcquire, h1, h2, ih]

theorem runInitBody_counts_le_one (s : MMState) (env : InitEnv) :
    (runInitBody s env).fetches ≤ 1 ∧ (runInitBody s env).constructions ≤ 1 := by
  obtain ⟨ort, fetchR, createR⟩ := env
  obtain ⟨sess, buf, init, prom⟩ := s
  cases ort <;> cases buf <;> cases fetchR <;> cases createR <;>
    simp [runInitBody, initializeCreate]

/-- C1: starting from an uninitialized cache, the first of N concurrent
`initialize` calls starts the single in-flight attempt and every later
caller receives a handle to that same attempt without changing the
state; the one initialization body performs at most one network fetch
and at most one engine construction, and every caller observes the
outcome of that single body. -/
theorem initialize_single_flight (s : MMState) (id0 : ℕ) (ids : List ℕ)
    (env : InitEnv) (h1 : s.isInitialized = false)
    (h2 : s.initializationPromise = none) :
    (initializeAcquire s id0).1 = .started id0 ∧
    (acquireMany (initializeAcquire s id0).2 ids).1 =
      ids.map (fun _ => .attached id0) ∧
    (acquireMany (initializeAcquire s id0).2 ids).2 = (initializeAcquire s id0).2 ∧
    (runInitBody (initializeAcquire s id0).2 env).fetches ≤ 1 ∧
    (runInitBody (initializeAcquire s id0).2 env).constructions ≤ 1 ∧
    ∀ r ∈ (initializeAcquire s id0).1 :: (acquireMany (initializeAcquire s id0).2 ids).1,
      observe (runInitBody (initializeAcquire s id0).2 env) r =
        (runInitBody (initializeAcquire s id0).2 env).outcome := by
  have hacq : initializeAcquire s id0 =
      (.started id0, { s with initializationPromise := some id0 }) := by
    simp [initializeAcquire, h1, h2]
  have hstate : (initializeAcquire s id0).2.isInitialized = false := by
    rw [hacq]; exact h1
  have hprom : (initializeAcquire s id0).2.initializationPromise = some id0 := by
    rw [hacq]
  have hmany := acquireMany_attached (initializeAcquire s id0).2 id0 hstate hprom ids
  refine ⟨by rw [hacq], by rw [hmany], by rw [hmany],
    (runInitBody_counts_le_one _ _).1, (runInitBody_counts_le_one _ _).2, ?_⟩
  intro r hr
  rcases List.mem_cons.mp hr with hfst | hrest
  · rw [hacq] at hfst
    rw [hfst]
    rfl
  · rw [hmany] at hrest
    simp only [List.mem_map] at hrest
    obtain ⟨a, -, ha⟩ := hrest
    rw [← ha]
    rfl

theorem initialize_single_flight_witness :
    (initializeAcquire MMState.new 0).1 = .started 0 ∧
    (acquireMany (initializeAcquire MMState.new 0).2 [1, 2]).1 =
      [InitAcquire.attached 0, InitAcquire.attached 0] ∧
    (runInitBody (initializeAcquire MMState.new 0).2 ⟨true, .ok [7], .ok 3⟩).fetches ≤ 1 ∧
    observe (runInitBody (initializeAcquire MMState.new 0).2 ⟨true, .ok [7], .ok 3⟩)
        (.attached 0) =
      (runInitBody (initializeAcquire MMState.new 0).2 ⟨true, .ok [7], .ok 3⟩).outcome :=
  have hsf := initialize_single_flight MMState.new 0 [1, 2] ⟨true, .ok [7], .ok 3⟩ rfl rfl
  ⟨hsf.1, hsf.2.1, hsf.2.2.2.1, hsf.2.2.2.2.2 (.attached 0) (by decide)⟩

/-- C2 counterexample: from a fresh cache, an initialization where the
network fetch succeeds and the engine construction fails rejects with
the wrapped cause, yet the fetched model bytes are retained (not
discarded), and the retry performs zero network fetches (it does not
re-fetch). -/
theorem initialize_failure_counterexample :
    (runInitBody (initializeAcquire MMState.new 0).2
        ⟨true, .ok [1, 2, 3], .error "boom"⟩).outcome
      = .rejected (.engineLoadError "boom") ∧
    (runInitBody (initializeAcquire MMState.new 0).2
        ⟨true, .ok [1, 2, 3], .error "boom"⟩).state.modelBuffer
      = some [1, 2, 3] ∧
    (runInitBody
        (initializeAcquire
          (runInitBody (initializeAcquire MMState.new 0).2
            ⟨true, .ok [1, 2, 3], .error "boom"⟩).state 1).2
        ⟨true, .ok [1, 2, 3], .error "boom"⟩).fetches = 0 :=
  ⟨rfl, rfl, rfl⟩

/-- C2 (amended): when the initialization body fails with the ONNX
runtime loaded (a network-fetch failure or an engine-construction
failure — the failure modes the claim names, which occur after the
in-flight handle is installed), the handle is cleared and the cache is
back to uninitialized so a subsequent `initialize` can retry, and the
error is an `EngineLoadError` wrapping the underlying cause; the
cached model bytes, however, are discarded only when no fetch
succeeded — bytes obtained by a successful fetch are retained even
when engine construction then fails, so the retry skips the network
fetch. -/
theorem initialize_failure_resets (s : MMState) (env : InitEnv) (e : MMError)
    (h1 : s.isInitialized = false) (hort : env.ortLoaded = true)
    (hrun : (runInitBody s env).outcome = .rejected e) :
    (runInitBody s env).state.initializationPromise = none ∧
    (runInitBody s env).state.isInitialized = false ∧
    (∃ cause, e = .engineLoadError cause) ∧
    ((runInitBody s env).state.modelBuffer =
      match s.modelBuffer with
      | some b => some b
      | none =>
        match env.fetchResult with
        | .ok bytes => some bytes
        | .error _ => none) ∧
    ∀ id, (initializeAcquire (runInitBody s env).state id).1 = .started id := by
  obtain ⟨ort, fetchR, createR⟩ := env
  simp only at hort
  subst hort
  obtain ⟨sess, buf, init, prom⟩ := s
  cases buf <;> cases fetchR <;> cases createR <;>
    simp_all [runInitBody, initializeCreate, initializeAcquire] <;>
    exact ⟨_, hrun.symm⟩

theorem initialize_failure_resets_witness :
    (runInitBody (initializeAcquire MMState.new 0).2
        ⟨true, .error "net down", .ok 3⟩).state.initializationPromise = none ∧
    (runInitBody (initializeAcquire MMState.new 0).2
        ⟨true, .error "net down", .ok 3⟩).state.isInitialized = false ∧
    (∃ cause, MMError.engineLoadError "net down" = .engineLoadError cause) ∧
    ((runInitBody (initializeAcquire MMState.new 0).2
        ⟨true, .error "net down", .ok 3⟩).state.modelBuffer =
      match (initializeAcquire MMState.new 0).2.modelBuffer with
      | some b => some b
      | none =>
        match (Except.error "net down" : Except String (List ℕ)) with
        | .ok bytes => some bytes
        | .error _ => none) ∧
    ∀ id, (initializeAcquire (runInitBody (initializeAcquire MMState.new 0).2
        ⟨true, .error "net down", .ok 3⟩).state id).1 = .started id :=
  initialize_failure_resets (initializeAcquire MMState.new 0).2
    ⟨true, .error "net down", .ok 3⟩ (.engineLoadError "net down") rfl rfl rfl

theorem sampledMax_fin_of_bounded (d : ℕ → JVal) (n : ℕ)
    (h : ∀ k, k < n → ∃ q, d k = .fin q ∧ 0 ≤ q ∧ q ≤ 1) :
    ∃ m, sampledMax d n = .fin m ∧ 0 ≤ m ∧ m ≤ 1 := by
  induction n with
  | zero => exact ⟨0, rfl, le_refl 0, by norm_num⟩
  | succ n ih =>
    obtain ⟨m, hm, hm0, hm1⟩ := ih (fun k hk => h k (hk.trans (Nat.lt_succ_self n)))
    obtain ⟨q, hq, hq0, hq1⟩ := h n (Nat.lt_succ_self n)
    refine ⟨max m |q|, ?_, le_max_of_le_left hm0,
      max_le hm1 (by rwa [abs_of_nonneg hq0])⟩
    simp only [sampledMax]
    rw [hm, hq]
    rfl

theorem postprocessImage_data_channel (t : Tensor) (width height : ℕ)
    (i : ℕ) (hi : i < width * height) (c : ℕ) (hc : c < 3) :
    (postprocessImage t width height).data (4 * i + c) =
      postChannelByte (t.data (c * (width * height) + i))
        (jLe (sampledMax t.data (min 1000 (t.length / 3))) (.fin 2)) := by
  have hdiv : (4 * i + c) / 4 = i := by omega
  have hmod : (4 * i + c) % 4 = c := by omega
  have hc3 : c ≠ 3 := by omega
  simp only [postprocessImage]
  rw [hdiv, hmod, if_pos hi, if_neg hc3]

theorem postprocessImage_data_alpha (t : Tensor) (width height : ℕ)
    (i : ℕ) (hi : i < width * height) :
    (postprocessImage t width height).data (4 * i + 3) = 255 := by
  have hdiv : (4 * i + 3) / 4 = i := by omega
  have hmod : (4 * i + 3) % 4 = 3 := by omega
  simp only [postprocessImage]
  rw [hdiv, hmod, if_pos hi, if_pos rfl]

theorem postChannelByte_fin_normalized (v : ℚ) :
    postChannelByte (.fin v) true = (min 255 (max 0 ⌊v * 255 + 1/2⌋)).toNat := by
  have h1 : jRound (jMul255 (.fin v)) = .fin ((⌊v * 255 + 1/2⌋ : ℤ) : ℚ) := rfl
  show clampedByte (jMin (.fin 255) (jMax (.fin 0) (jRound (jMul255 (.fin v))))) = _
  rw [h1, clampedByte_clamp_intCast]

theorem postChannelByte_fin_raw (v : ℚ) :
    postChannelByte (.fin v) false = (min 255 (max 0 ⌊v + 1/2⌋)).toNat := by
  have h1 : jRound (.fin v) = .fin ((⌊v + 1/2⌋ : ℤ) : ℚ) := rfl
  show clampedByte (jMin (.fin 255) (jMax (.fin 0) (jRound (.fin v)))) = _
  rw [h1, clampedByte_clamp_intCast]

theorem postChannelByte_le (v : JVal) (b : Bool) : postChannelByte v b ≤ 255 := by
  cases b <;> exact clampedByte_le _

/-- C10: for every output tensor of length `3*width*height`, whatever
numeric values it holds (`NaN`, infinities, negative or out-of-range
values included), `postprocessImage` produces a well-formed buffer:
each R, G, B byte lies in `[0, 255]` and every alpha byte is `255`. -/
theorem postprocessImage_wellformed (t : Tensor) (width height : ℕ)
    (hlen : t.length = 3 * (width * height)) (i : ℕ) (hi : i < width * height) :
    (∀ c, c < 3 → (postprocessImage t width height).data (4 * i + c) ≤ 255) ∧
    (postprocessImage t width height).data (4 * i + 3) = 255 := by
  refine ⟨fun c hc => ?_, postprocessImage_data_alpha t width height i hi⟩
  rw [postprocessImage_data_channel t width height i hi c hc]
  exact postChannelByte_le _ _

theorem postprocessImage_wellformed_witness :
    (postprocessImage ⟨fun _ => .nan, 3⟩ 1 1).data (4 * 0 + 0) ≤ 255 ∧
    (postprocessImage ⟨fun _ => .nan, 3⟩ 1 1).data (4 * 0 + 3) = 255 :=
  have h := postprocessImage_wellformed ⟨fun _ => .nan, 3⟩ 1 1 rfl 0 (by norm_num)
  ⟨h.1 0 (by norm_num), h.2⟩

/-- C5: `postprocessImage` decides normalization from the maximum
absolute value of the first `min(1000, plane-length)` leading tensor
values: a sampled maximum `≤ 2.0` (boundary included) multiplies every
channel value by 255 before rounding and clamping, and a sampled
maximum `> 2.0` passes the values through unscaled. -/
theorem postprocessImage_range_detection (t : Tensor) (width height : ℕ)
    (hlen : t.length = 3 * (width * height))
    (m : ℚ) (hm : sampledMax t.data (min 1000 (width * height)) = .fin m)
    (i : ℕ) (hi : i < width * height) (c : ℕ) (hc : c < 3)
    (v : ℚ) (hv : t.data (c * (width * height) + i) = .fin v) :
    (m ≤ 2 → (postprocessImage t width height).data (4 * i + c) =
      (min 255 (max 0 ⌊v * 255 + 1/2⌋)).toNat) ∧
    (2 < m → (postprocessImage t width height).data (4 * i + c) =
      (min 255 (max 0 ⌊v + 1/2⌋)).toNat) := by
  have hdiv3 : t.length / 3 = width * height := by rw [hlen]; omega
  constructor
  · intro hle
    rw [postprocessImage_data_channel t width height i hi c hc, hdiv3, hm, hv]
    have hjle : jLe (.fin m) (.fin 2) = true := by simp [jLe, hle]
    rw [hjle, postChannelByte_fin_normalized]
  · intro hgt
    rw [postprocessImage_data_channel t width height i hi c hc, hdiv3, hm, hv]
    have hjle : jLe (.fin m) (.fin 2) = false := by
      simp [jLe, not_le.mpr hgt]
    rw [hjle, postChannelByte_fin_raw]

theorem postprocessImage_range_detection_witness :
    (postprocessImage ⟨fun _ => .fin 1, 3⟩ 1 1).data (4 * 0 + 0) =
      (min 255 (max 0 ⌊(1 : ℚ) * 255 + 1/2⌋)).toNat :=
  (postprocessImage_range_detection ⟨fun _ => .fin 1, 3⟩ 1 1 rfl 1 (by decide)
    0 (by norm_num) 0 (by norm_num) 1 rfl).1 (by norm_num)

/-- C4: encoding an image with `preprocessImage` and decoding a tensor
built from the same channel values with `postprocessImage` (bypassing
the engine) reproduces every R, G and B byte within ±1 (the values come
back exactly, so the difference is 0) and sets every alpha byte to
255. -/
theorem tensor_codec_roundtrip (cfg : WatermarkConfig) (img : ImageData)
    (hb : ∀ k, img.data k ≤ 255)
    (i : ℕ) (hi : i < img.width * img.height) :
    (∀ c, c < 3 →
      |((postprocessImage (preprocessImage cfg img).1 img.width img.height).data
          (4 * i + c) : ℤ) - (img.data (4 * i + c) : ℤ)| ≤ 1) ∧
    (postprocessImage (preprocessImage cfg img).1 img.width img.height).data
      (4 * i + 3) = 255 := by
  have hwh0 : 0 < img.width * img.height := lt_of_le_of_lt (Nat.zero_le i) hi
  have htfst : (preprocessImage cfg img).1 = preprocessImageTensor img := rfl
  refine ⟨fun c hc => ?_, postprocessImage_data_alpha _ _ _ i hi⟩
  have hdiv3 : (preprocessImageTensor img).length / 3 = img.width * img.height := by
    show 3 * (img.width * img.height) / 3 = img.width * img.height
    omega
  have hbound : ∀ k, k < min 1000 (img.width * img.height) →
      ∃ q, (preprocessImageTensor img).data k = .fin q ∧ 0 ≤ q ∧ q ≤ 1 := by
    intro k hk
    have hkwh : k < img.width * img.height := lt_of_lt_of_le hk (min_le_right _ _)
    have hk3 : k < 3 * (img.width * img.height) := by omega
    refine ⟨(img.data (4 * k) : ℚ) / 255, ?_, by positivity, ?_⟩
    · simp only [preprocessImageTensor]
      rw [if_pos hk3, Nat.mod_eq_of_lt hkwh, Nat.div_eq_of_lt hkwh]
      simp
    · rw [div_le_one (by norm_num)]
      exact_mod_cast hb (4 * k)
  obtain ⟨m, hm, hm0, hm1⟩ := sampledMax_fin_of_bounded _ _ hbound
  have hk3 : c * (img.width * img.height) + i < 3 * (img.width * img.height) := by
    have h1 : c * (img.width * img.height) + i < (c + 1) * (img.width * img.height) := by
      rw [Nat.succ_mul]
      exact Nat.add_lt_add_left hi _
    have h2 : (c + 1) * (img.width * img.height) ≤ 3 * (img.width * img.height) :=
      Nat.mul_le_mul_right _ hc
    exact lt_of_lt_of_le h1 h2
  have hdv : (c * (img.width * img.height) + i) / (img.width * img.height) = c := by
    rw [Nat.mul_comm c (img.width * img.height), Nat.mul_add_div hwh0,
      Nat.div_eq_of_lt hi, Nat.add_zero]
  have hmd : (c * (img.width * img.height) + i) % (img.width * img.height) = i := by
    rw [Nat.mul_comm c (img.width * img.height), Nat.mul_add_mod]
    exact Nat.mod_eq_of_lt hi
  have hv : (preprocessImageTensor img).data (c * (img.width * img.height) + i) =
      .fin ((img.data (4 * i + c) : ℚ) / 255) := by
    simp only [preprocessImageTensor]
    rw [if_pos hk3, hmd, hdv]
  rw [htfst, postprocessImage_data_channel _ _ _ i hi c hc, hdiv3, hm, hv]
  have hjle : jLe (.fin m) (.fin 2) = true := by
    simp only [jLe, decide_eq_true_eq]
    linarith
  rw [hjle, postChannelByte_fin_normalized]
  set b : ℕ := img.data (4 * i + c) with hbdef
  have hb255 : b ≤ 255 := hb _
  have hmul : ((b : ℚ) / 255) * 255 = (b : ℚ) := div_mul_cancel₀ _ (by norm_num)
  rw [hmul]
  have hfloor : ⌊(b : ℚ) + 1/2⌋ = (b : ℤ) := by
    rw [show ((b : ℕ) : ℚ) = (((b : ℕ) : ℤ) : ℚ) by push_cast; ring,
      Int.floor_int_add]
    norm_num
  rw [hfloor]
  have hmaxmin : min 255 (max 0 (b : ℤ)) = (b : ℤ) := by
    rw [max_eq_right (by positivity), min_eq_right (by exact_mod_cast hb255)]
  rw [hmaxmin, Int.toNat_natCast]
  simp

theorem tensor_codec_roundtrip_witness :
    |((postprocessImage
        (preprocessImage ⟨1/4, 1/8, 3/10⟩ ⟨1, 1, fun _ => 200⟩).1 1 1).data
        (4 * 0 + 0) : ℤ) - (200 : ℤ)| ≤ 1 ∧
    (postprocessImage
        (preprocessImage ⟨1/4, 1/8, 3/10⟩ ⟨1, 1, fun _ => 200⟩).1 1 1).data
      (4 * 0 + 3) = 255 :=
  have h := tensor_codec_roundtrip ⟨1/4, 1/8, 3/10⟩ ⟨1, 1, fun _ => 200⟩
    (fun _ => by norm_num) 0 (by norm_num)
  ⟨h.1 0 (by norm_num), h.2⟩

end GeminiWatermark
